import Mathlib

/-!
Verification of the eskdale-minigolf procedural-generation scripts.

Shallow embedding of the pure computational parts of the repository's
Python scripts into Lean:

* `HoleBuilderUtils` — `scripts/hole_builder_utils.py` (Catmull-Rom chain,
  path-ribbon mesh building, material/collection/object helpers).
* `FixTerrainCut` — `scripts/fix_terrain_cut.py` (sloped elliptical
  terrain cut).
* `BuildHole5` — `scripts/build_hole_5.py` (collection/material lookups,
  windmill rotation driver expression).
* `EskdaleTheme` — `scripts/build_eskdale_theme.py` (waterwheel rotation
  driver expression).
* `BlenderWs` — `scripts/blender_ws.py` (WebSocket command relay reply
  handling).

Exact-arithmetic parts of the code (spline evaluation, name bookkeeping)
are embedded over `ℚ` / `String` lists and stay executable; parts that use
`math.sqrt` / `Vector.normalized` are idealized over `ℝ` with `Real.sqrt`.
-/

/-- A 3-component vector with exact rational coordinates, standing for a
`mathutils.Vector` in the code paths that use no square roots. -/
structure Vec3Q where
  x : ℚ
  y : ℚ
  z : ℚ
deriving DecidableEq, Repr

namespace HoleBuilderUtils

/-- Catmull-Rom spline interpolation for a single component
(`catmull_rom` in `hole_builder_utils.py`; its `alpha` parameter is
unused by the body and omitted here). -/
def catmull_rom (p0 p1 p2 p3 t : ℚ) : ℚ :=
  let t2 := t * t
  let t3 := t2 * t
  0.5 * (
    (2.0 * p1) +
    (-p0 + p2) * t +
    (2.0 * p0 - 5.0 * p1 + 4.0 * p2 - p3) * t2 +
    (-p0 + 3.0 * p1 - 3.0 * p2 + p3) * t3)

/-- Zero vector, the `getD` default used for list indexing (every index
used is in bounds, so the default is never observed). -/
def v0Q : Vec3Q := ⟨0, 0, 0⟩

/-- One interpolated sample of the chain: the Python loop body computes
`catmull_rom` componentwise on `pts[i-1], pts[i], pts[i+1], pts[i+2]`
at parameter `t = s / segments_per_span`.  Here `j = i - 1`. -/
def chainSample (pts : List Vec3Q) (segments_per_span : ℕ) (j s : ℕ) : Vec3Q :=
  let t : ℚ := (s : ℚ) / (segments_per_span : ℚ)
  { x := catmull_rom (pts.getD j v0Q).x (pts.getD (j+1) v0Q).x
      (pts.getD (j+2) v0Q).x (pts.getD (j+3) v0Q).x t,
    y := catmull_rom (pts.getD j v0Q).y (pts.getD (j+1) v0Q).y
      (pts.getD (j+2) v0Q).y (pts.getD (j+3) v0Q).y t,
    z := catmull_rom (pts.getD j v0Q).z (pts.getD (j+1) v0Q).z
      (pts.getD (j+2) v0Q).z (pts.getD (j+3) v0Q).z t }

/-- Generate a smooth curve through control points using Catmull-Rom
splines (`catmull_rom_chain` in `hole_builder_utils.py`).  The Python
`for i in range(1, len(pts) - 2)` loop is indexed here by `j = i - 1`
ranging over `List.range (pts.length - 3)`; the trailing
`result.append(Vector(pts[-2]))` is the final `++ [...]`. -/
def catmull_rom_chain (points : List Vec3Q) (segments_per_span : ℕ) : List Vec3Q :=
  if points.length < 2 then points
  else
    let pts := points.headD v0Q :: (points ++ [points.getLastD v0Q])
    let result := List.flatMap (List.range (pts.length - 3)) (fun j =>
      List.map (fun s => chainSample pts segments_per_span j s)
        (List.range segments_per_span))
    result ++ [pts.getD (pts.length - 2) v0Q]

lemma catmull_rom_zero (p0 p1 p2 p3 : ℚ) : catmull_rom p0 p1 p2 p3 0 = p1 := by
  simp [catmull_rom]
  ring

lemma chainSample_zero (pts : List Vec3Q) (n : ℕ) (j : ℕ) :
    chainSample pts n j 0 = pts.getD (j+1) v0Q := by
  simp [chainSample, catmull_rom_zero]

lemma getLast?_eq_getLastD {α : Type} (l : List α) (d : α) (h : l ≠ []) :
    l.getLast? = some (l.getLastD d) := by
  cases l with
  | nil => exact absurd rfl h
  | cons a t =>
    induction t generalizing a with
    | nil => rfl
    | cons b t ih => simpa using ih b

lemma getD_cons_length {α : Type} (l : List α) (x d : α) :
    (x :: l).getD l.length d = (x :: l).getLastD d := by
  induction l generalizing x with
  | nil => rfl
  | cons y t ih => simpa using ih y

/-- C1: for every list of control points of length at least 2 (and a
positive per-span segment count), the list returned by
`catmull_rom_chain` starts exactly at the first control point and ends
exactly at the last control point. -/
theorem catmull_rom_chain_endpoints (points : List Vec3Q) (n : ℕ)
    (hlen : 2 ≤ points.length) (hn : 0 < n) :
    (catmull_rom_chain points n).head? = points.head? ∧
    (catmull_rom_chain points n).getLast? = points.getLast? := by
  match points, hlen with
  | a :: b :: rest, _ =>
    obtain ⟨m, rfl⟩ : ∃ m, n = m + 1 := ⟨n - 1, by omega⟩
    have hif : ¬ (a :: b :: rest).length < 2 := by simp
    constructor
    · rw [catmull_rom_chain, if_neg hif]
      simp only [List.headD_cons]
      have hlen3 : (a :: ((a :: b :: rest) ++ [(a :: b :: rest).getLastD v0Q])).length - 3
          = rest.length + 1 := by simp
      rw [hlen3, List.range_succ_eq_map, List.flatMap_cons,
        List.range_succ_eq_map]
      simp only [List.map_cons, List.cons_append, List.head?_cons,
        List.head?_append, chainSample_zero]
      rfl
    · rw [catmull_rom_chain, if_neg hif]
      simp only [List.headD_cons]
      rw [List.getLast?_concat]
      have hlen2 : (a :: ((a :: b :: rest) ++ [(a :: b :: rest).getLastD v0Q])).length - 2
          = rest.length + 2 := by simp
      rw [hlen2]
      have hpts : a :: ((a :: b :: rest) ++ [(a :: b :: rest).getLastD v0Q])
          = a :: a :: ((b :: rest) ++ [(a :: b :: rest).getLastD v0Q]) := by simp
      rw [hpts]
      have hgd : (a :: a :: ((b :: rest) ++ [(a :: b :: rest).getLastD v0Q])).getD
          (rest.length + 2) v0Q
          = ((b :: rest) ++ [(a :: b :: rest).getLastD v0Q]).getD rest.length v0Q := rfl
      rw [hgd, List.getD_append _ _ _ _ (by simp), getD_cons_length,
        getLast?_eq_getLastD (a :: b :: rest) v0Q (by simp)]
      simp

/-- Witness for C1 at a concrete input: three control points and the
default 12 segments per span. -/
theorem catmull_rom_chain_endpoints_witness :
    2 ≤ ([⟨0, 0, 0⟩, ⟨1, 2, 3⟩, ⟨4, 5, 6⟩] : List Vec3Q).length ∧ 0 < 12 ∧
    ((catmull_rom_chain [⟨0, 0, 0⟩, ⟨1, 2, 3⟩, ⟨4, 5, 6⟩] 12).head?
        = ([⟨0, 0, 0⟩, ⟨1, 2, 3⟩, ⟨4, 5, 6⟩] : List Vec3Q).head? ∧
      (catmull_rom_chain [⟨0, 0, 0⟩, ⟨1, 2, 3⟩, ⟨4, 5, 6⟩] 12).getLast?
        = ([⟨0, 0, 0⟩, ⟨1, 2, 3⟩, ⟨4, 5, 6⟩] : List Vec3Q).getLast?) :=
  ⟨by decide, by decide,
    catmull_rom_chain_endpoints [⟨0, 0, 0⟩, ⟨1, 2, 3⟩, ⟨4, 5, 6⟩] 12
      (by decide) (by decide)⟩

end HoleBuilderUtils

/-- A 3-component vector with real coordinates, standing for a
`mathutils.Vector` / `bmesh` vertex coordinate in the code paths that use
`math.sqrt` (idealized over `ℝ`). -/
structure Vec3R where
  x : ℝ
  y : ℝ
  z : ℝ

namespace FixTerrainCut

/-- Module constant `GOLF_HIGH` of `fix_terrain_cut.py`. -/
def GOLF_HIGH : ℝ × ℝ := (21.7, 37.0)

/-- Module constant `GOLF_LOW` of `fix_terrain_cut.py`. -/
def GOLF_LOW : ℝ × ℝ := (20.0, 40.0)

/-- The module constants of `fix_terrain_cut.py` that the cut reads:
`GOLF_CENTER = (cx, cy)`, `CUT_RX = rx`, `CUT_RY = ry`,
`CUT_Z_HIGH = zHigh`, `CUT_Z_LOW = zLow`.  They are gathered into a
parameter record so that claims quantifying over them can be stated. -/
structure CutParams where
  cx : ℝ
  cy : ℝ
  rx : ℝ
  ry : ℝ
  zHigh : ℝ
  zLow : ℝ

/-- The constant values actually bound in `fix_terrain_cut.py`. -/
def defaultParams : CutParams :=
  { cx := 20.85, cy := 38.5, rx := 6.5, ry := 7.5, zHigh := 0.90, zLow := 0.10 }

/-- Unit vector from high end to low end of the course plus its length
(`slope_direction` in `fix_terrain_cut.py`). -/
noncomputable def slope_direction : ℝ × ℝ × ℝ :=
  let dx := GOLF_LOW.1 - GOLF_HIGH.1
  let dy := GOLF_LOW.2 - GOLF_HIGH.2
  let length := Real.sqrt (dx * dx + dy * dy)
  (dx / length, dy / length, length)

/-- Hermite smoothstep with input clamping (`smoothstep` in
`fix_terrain_cut.py`). -/
def smoothstep (t : ℝ) : ℝ :=
  let tc := max 0 (min 1 t)
  tc * tc * (3 - 2 * tc)

/-- Normalized elliptical distance of a vertex from the cut center
(the `dist` computed per vertex inside `cut_mesh`). -/
noncomputable def elliptic_dist (p : CutParams) (v : Vec3R) : ℝ :=
  let ex := (v.x - p.cx) / p.rx
  let ey := (v.y - p.cy) / p.ry
  Real.sqrt (ex * ex + ey * ey)

/-- Slope-interpolated target cut height for a vertex (the `target_z`
computed per vertex inside `cut_mesh`). -/
noncomputable def target_z (p : CutParams) (v : Vec3R) : ℝ :=
  let sd := slope_direction
  let px := v.x - GOLF_HIGH.1
  let py := v.y - GOLF_HIGH.2
  let t_slope := (px * sd.1 + py * sd.2.1) / sd.2.2
  let tc := max 0 (min 1 t_slope)
  p.zHigh + tc * (p.zLow - p.zHigh)

/-- Distance-based blend factor (full cut inside `dist < 0.55`, smooth
transition at the edge), as computed per vertex inside `cut_mesh`. -/
noncomputable def blend_factor (p : CutParams) (v : Vec3R) : ℝ :=
  if elliptic_dist p v < 0.55 then 1
  else 1 - smoothstep ((elliptic_dist p v - 0.55) / 0.45)

/-- Candidate new height `new_z = z * (1 - blend) + target_z * blend`
computed per vertex inside `cut_mesh`. -/
noncomputable def new_z (p : CutParams) (v : Vec3R) : ℝ :=
  v.z * (1 - blend_factor p v) + target_z p v * blend_factor p v

/-- One loop iteration of `cut_mesh` on a single vertex: returns the
(possibly updated) vertex and whether `modified` was incremented.
Vertices at `dist >= 1.0` are skipped (`continue`), and the height is
only assigned when `new_z < v.co.z`. -/
noncomputable def cutVert (p : CutParams) (v : Vec3R) : Vec3R × Bool :=
  if elliptic_dist p v ≥ 1 then (v, false)
  else if new_z p v < v.z then ({ v with z := new_z p v }, true)
  else (v, false)

/-- The vertex loop of `cut_mesh` in `fix_terrain_cut.py`: transforms
every vertex in order and accumulates the `modified` counter, returning
the written-back vertex list and the counter (the function's return
value). -/
noncomputable def cut_mesh (p : CutParams) (verts : List Vec3R) : List Vec3R × ℕ :=
  verts.foldl (fun acc v =>
    let r := cutVert p v
    (acc.1 ++ [r.1], acc.2 + (if r.2 then 1 else 0))) ([], 0)

lemma cut_mesh_foldl (p : CutParams) (verts : List Vec3R) (l : List Vec3R) (n : ℕ) :
    verts.foldl (fun acc v =>
        let r := cutVert p v
        (acc.1 ++ [r.1], acc.2 + (if r.2 then 1 else 0))) (l, n)
      = (l ++ verts.map (fun v => (cutVert p v).1),
         n + verts.countP (fun v => (cutVert p v).2)) := by
  induction verts generalizing l n with
  | nil => simp
  | cons v vs ih =>
    simp only [List.foldl_cons, List.map_cons, List.countP_cons, ih, Prod.mk.injEq]
    constructor
    · simp
    · cases h : (cutVert p v).2 <;> simp [h] <;> omega

lemma cut_mesh_eq (p : CutParams) (verts : List Vec3R) :
    cut_mesh p verts
      = (verts.map (fun v => (cutVert p v).1),
         verts.countP (fun v => (cutVert p v).2)) := by
  rw [cut_mesh, cut_mesh_foldl]
  simp

lemma cutVert_z_le (p : CutParams) (v : Vec3R) : ((cutVert p v).1).z ≤ v.z := by
  rw [cutVert]
  split
  · rfl
  · split
    · rename_i h
      exact le_of_lt h
    · rfl

lemma forall₂_map_self {α β : Type} (r : β → α → Prop) (f : α → β) (l : List α)
    (h : ∀ x ∈ l, r (f x) x) : List.Forall₂ r (l.map f) l := by
  induction l with
  | nil => exact List.Forall₂.nil
  | cons a t ih =>
    exact List.Forall₂.cons (h a (by simp)) (ih (fun x hx => h x (by simp [hx])))

/-- C2: for every choice of the cut constants with nonzero radii (the
Python code divides by the radii) and every vertex list, the height of
each vertex after `cut_mesh` is at most its height before: the cut only
lowers, never raises. -/
theorem cut_mesh_only_lowers (p : CutParams) (hrx : p.rx ≠ 0) (hry : p.ry ≠ 0)
    (verts : List Vec3R) :
    List.Forall₂ (fun (v' v : Vec3R) => v'.z ≤ v.z) (cut_mesh p verts).1 verts := by
  rw [cut_mesh_eq]
  exact forall₂_map_self _ _ _ (fun v _ => cutVert_z_le p v)

/-- Witness for C2 at the script's own constants and a one-vertex mesh. -/
theorem cut_mesh_only_lowers_witness :
    defaultParams.rx ≠ 0 ∧ defaultParams.ry ≠ 0 ∧
    List.Forall₂ (fun (v' v : Vec3R) => v'.z ≤ v.z)
      (cut_mesh defaultParams [⟨20.85, 38.5, 0⟩]).1 [⟨20.85, 38.5, 0⟩] :=
  ⟨by norm_num [defaultParams], by norm_num [defaultParams],
    cut_mesh_only_lowers defaultParams (by norm_num [defaultParams])
      (by norm_num [defaultParams]) [⟨20.85, 38.5, 0⟩]⟩

lemma cutVert_outside (p : CutParams) (v : Vec3R) (h : 1 ≤ elliptic_dist p v) :
    cutVert p v = (v, false) := by
  rw [cutVert, if_pos h]

lemma cutVert_xy (p : CutParams) (v : Vec3R) :
    ((cutVert p v).1).x = v.x ∧ ((cutVert p v).1).y = v.y := by
  rw [cutVert]
  split
  · exact ⟨rfl, rfl⟩
  · split
    · exact ⟨rfl, rfl⟩
    · exact ⟨rfl, rfl⟩

/-- C9: `cut_mesh` (run with the script's constants) never changes any
vertex's x or y coordinate, and any vertex whose normalized elliptical
distance from the cut center is at least 1.0 is left entirely
unchanged; only heights of vertices strictly inside the ellipse can
change. -/
theorem cut_mesh_frame (verts : List Vec3R) :
    List.Forall₂ (fun (v' v : Vec3R) => v'.x = v.x ∧ v'.y = v.y ∧
        (1 ≤ elliptic_dist defaultParams v → v' = v))
      (cut_mesh defaultParams verts).1 verts := by
  rw [cut_mesh_eq]
  refine forall₂_map_self _ _ _ (fun v _ => ?_)
  refine ⟨(cutVert_xy defaultParams v).1, (cutVert_xy defaultParams v).2, fun h => ?_⟩
  rw [cutVert_outside defaultParams v h]

end FixTerrainCut

namespace FixTerrainCut

lemma cutVert_snd_iff (p : CutParams) (v : Vec3R) :
    (cutVert p v).2 = true ↔ (elliptic_dist p v < 1 ∧ new_z p v < v.z) := by
  rw [cutVert]
  split
  · rename_i h
    simp only [Bool.false_eq_true, false_iff]
    rintro ⟨h1, _⟩
    exact absurd h1 (not_lt.mpr h)
  · rename_i h
    split
    · rename_i h2
      simp only [true_iff]
      exact ⟨lt_of_not_ge h, h2⟩
    · rename_i h2
      simp only [Bool.false_eq_true, false_iff]
      rintro ⟨_, hz⟩
      exact h2 hz

/-- C6 (amended): the `modified` counter returned by `cut_mesh` equals
the number of original vertices that are strictly inside the ellipse
AND whose smoothstep-blended candidate height is strictly below their
original height (the code only counts vertices it actually lowered). -/
theorem cut_mesh_modified_count (p : CutParams) (verts : List Vec3R) :
    (cut_mesh p verts).2
      = verts.countP (fun v => decide (elliptic_dist p v < 1 ∧ new_z p v < v.z)) := by
  rw [cut_mesh_eq]
  refine List.countP_congr (fun v _ => ?_)
  by_cases h : elliptic_dist p v < 1 ∧ new_z p v < v.z
  · rw [(cutVert_snd_iff p v).mpr h]
    simp [h]
  · have hf : (cutVert p v).2 = false := by
      rw [← Bool.not_eq_true, cutVert_snd_iff]
      exact h
    rw [hf]
    simp [h]

/-- Modelled from the spec's words, for comparison with the code: the
count of original vertices whose normalized elliptical distance from
the cut center was < 1.0. -/
noncomputable def spec_inside_count (p : CutParams) (verts : List Vec3R) : ℕ :=
  verts.countP (fun v => decide (elliptic_dist p v < 1))

lemma elliptic_dist_center : elliptic_dist defaultParams ⟨20.85, 38.5, 0⟩ = 0 := by
  rw [elliptic_dist]
  norm_num [defaultParams, Real.sqrt_zero]

lemma target_z_center : target_z defaultParams ⟨20.85, 38.5, 0⟩ = 0.5 := by
  rw [target_z, slope_direction]
  simp only [GOLF_HIGH, GOLF_LOW]
  have harg : ((20.0:ℝ) - 21.7) * (20.0 - 21.7) + (40.0 - 37.0) * (40.0 - 37.0) = 11.89 := by
    norm_num
  rw [harg]
  have hLpos : 0 < Real.sqrt 11.89 := Real.sqrt_pos.mpr (by norm_num)
  have hLne : Real.sqrt 11.89 ≠ 0 := ne_of_gt hLpos
  have hLL : Real.sqrt 11.89 * Real.sqrt 11.89 = 11.89 := Real.mul_self_sqrt (by norm_num)
  have hts : (((20.85:ℝ) - 21.7) * ((20.0 - 21.7) / Real.sqrt 11.89)
      + ((38.5:ℝ) - 37.0) * ((40.0 - 37.0) / Real.sqrt 11.89)) / Real.sqrt 11.89
      = 5.945 / (Real.sqrt 11.89 * Real.sqrt 11.89) := by
    field_simp
    ring
  rw [hts, hLL]
  norm_num [min_def, max_def, defaultParams]

lemma cutVert_center :
    cutVert defaultParams ⟨20.85, 38.5, 0⟩ = (⟨20.85, 38.5, 0⟩, false) := by
  have hb : blend_factor defaultParams ⟨20.85, 38.5, 0⟩ = 1 := by
    rw [blend_factor, elliptic_dist_center]
    norm_num
  have hnz : new_z defaultParams ⟨20.85, 38.5, 0⟩ = 0.5 := by
    rw [new_z, hb, target_z_center]
    norm_num
  rw [cutVert, elliptic_dist_center, if_neg (by norm_num), hnz, if_neg (by norm_num)]

/-- C6 counterexample: on a one-vertex mesh sitting at the golf center
below the slope-interpolated target height, `cut_mesh` (with the
script's constants) reports 0 modified vertices, while exactly 1
original vertex has normalized elliptical distance < 1.0. -/
theorem cut_mesh_count_counterexample :
    (cut_mesh defaultParams [⟨20.85, 38.5, 0⟩]).2 = 0 ∧
    spec_inside_count defaultParams [⟨20.85, 38.5, 0⟩] = 1 := by
  constructor
  · rw [cut_mesh_eq]
    simp [cutVert_center]
  · rw [spec_inside_count]
    simp [elliptic_dist_center]

end FixTerrainCut

namespace HoleBuilderUtils

/-- Zero vector over `ℝ`, the `getD` default for centerline indexing. -/
def v0R : Vec3R := ⟨0, 0, 0⟩

/-- Componentwise vector subtraction (`mathutils.Vector` difference). -/
def vsub (a b : Vec3R) : Vec3R := ⟨a.x - b.x, a.y - b.y, a.z - b.z⟩

/-- Vector normalization with the `mathutils` convention that a
zero-length vector normalizes to the zero vector. -/
noncomputable def normalized (v : Vec3R) : Vec3R :=
  let len := Real.sqrt (v.x * v.x + v.y * v.y + v.z * v.z)
  if len = 0 then ⟨0, 0, 0⟩ else ⟨v.x / len, v.y / len, v.z / len⟩

/-- Tangent selection of `build_path_mesh`: forward difference at the
first point, backward difference at the last, central difference in
between, each normalized. -/
noncomputable def tangent_at (cl : List Vec3R) (i : ℕ) : Vec3R :=
  if i = 0 then normalized (vsub (cl.getD 1 v0R) (cl.getD 0 v0R))
  else if i = cl.length - 1 then
    normalized (vsub (cl.getD (cl.length - 1) v0R) (cl.getD (cl.length - 2) v0R))
  else normalized (vsub (cl.getD (i+1) v0R) (cl.getD (i-1) v0R))

/-- The vertex-creation loop of `build_path_mesh`: for each centerline
point, a left and a right offset vertex (in creation order, so the left
vertex of point `i` has bmesh index `2*i` and the right one `2*i+1`).
The code overwrites `left.z`/`right.z` with `pt.z` after the offset. -/
noncomputable def ribbon_verts (cl : List Vec3R) (width : ℝ) : List Vec3R :=
  List.flatMap (List.range cl.length) (fun i =>
    let pt := cl.getD i v0R
    let tangent := tangent_at cl i
    let perp := normalized ⟨-tangent.y, tangent.x, 0⟩
    let half_w := width / 2
    [⟨pt.x + perp.x * half_w, pt.y + perp.y * half_w, pt.z⟩,
     ⟨pt.x - perp.x * half_w, pt.y - perp.y * half_w, pt.z⟩])

/-- Model of `bmesh.faces.new` wrapped in `try/except ValueError`: the
face (given by bmesh vertex indices) is appended unless it repeats a
vertex or a face over the same vertex set already exists, in which case
the exception is swallowed and the face list is unchanged. -/
def faces_new (fs : List (List ℕ)) (f : List ℕ) : List (List ℕ) :=
  if f.Nodup ∧ ¬ (∃ g ∈ fs, (g : Multiset ℕ) = (f : Multiset ℕ)) then fs ++ [f]
  else fs

/-- The quad emitted for segment `i`:
`[verts_left[i], verts_right[i], verts_right[i+1], verts_left[i+1]]`
as bmesh vertex indices. -/
def quad_face (i : ℕ) : List ℕ := [2*i, 2*i + 1, 2*(i+1) + 1, 2*(i+1)]

/-- The face-creation loop of `build_path_mesh`: one quad per
centerline segment, each insertion guarded by `try/except`. -/
def build_path_faces (n : ℕ) : List (List ℕ) :=
  (List.range (n - 1)).foldl (fun fs i => faces_new fs (quad_face i)) []

/-- A built bmesh: the vertex coordinates and the faces, each face a
list of bmesh vertex indices. -/
structure BMeshModel where
  verts : List Vec3R
  faces : List (List ℕ)

/-- Embedding of `build_path_mesh` from `hole_builder_utils.py`
(the UV-assignment pass touches neither vertices nor faces and is
omitted). -/
noncomputable def build_path_mesh (cl : List Vec3R) (width : ℝ) : BMeshModel :=
  { verts := ribbon_verts cl width, faces := build_path_faces cl.length }

lemma quad_face_nodup (i : ℕ) : (quad_face i).Nodup := by
  simp [quad_face]
  omega

lemma quad_face_ne (j i : ℕ) (h : j < i) :
    ¬ ((quad_face j : Multiset ℕ) = (quad_face i : Multiset ℕ)) := by
  intro he
  have hm : (2*(i+1) + 1) ∈ (quad_face j : Multiset ℕ) := by
    rw [he]
    simp [quad_face]
  simp [quad_face] at hm
  omega

lemma build_path_faces_range (m : ℕ) :
    (List.range m).foldl (fun fs i => faces_new fs (quad_face i)) []
      = (List.range m).map quad_face := by
  induction m with
  | zero => rfl
  | succ k ih =>
    rw [List.range_succ, List.foldl_append, List.map_append, ih]
    simp only [List.foldl_cons, List.foldl_nil, List.map_cons, List.map_nil]
    rw [faces_new, if_pos]
    refine ⟨quad_face_nodup k, ?_⟩
    rintro ⟨g, hg, he⟩
    rw [List.mem_map] at hg
    obtain ⟨j, hj, rfl⟩ := hg
    rw [List.mem_range] at hj
    exact quad_face_ne j k hj he

/-- C3: for every centerline of length at least 2 whose consecutive
points are pairwise distinct, the mesh produced by `build_path_mesh`
has exactly `centerline.length - 1` faces, and every face has exactly
4 vertices. -/
theorem build_path_mesh_faces (cl : List Vec3R) (width : ℝ)
    (hlen : 2 ≤ cl.length) (hdist : List.Chain' (fun a b => a ≠ b) cl) :
    (build_path_mesh cl width).faces.length = cl.length - 1 ∧
    ∀ f ∈ (build_path_mesh cl width).faces, f.length = 4 := by
  have hfaces : (build_path_mesh cl width).faces
      = (List.range (cl.length - 1)).map quad_face := by
    rw [build_path_mesh]
    exact build_path_faces_range (cl.length - 1)
  rw [hfaces]
  constructor
  · simp
  · intro f hf
    rw [List.mem_map] at hf
    obtain ⟨i, _, rfl⟩ := hf
    rfl

/-- Witness for C3 at a concrete input: a three-point centerline of
pairwise distinct points and width 2. -/
theorem build_path_mesh_faces_witness :
    2 ≤ ([⟨0, 0, 0⟩, ⟨1, 0, 0⟩, ⟨2, 0, 0⟩] : List Vec3R).length ∧
    List.Chain' (fun a b => a ≠ b) ([⟨0, 0, 0⟩, ⟨1, 0, 0⟩, ⟨2, 0, 0⟩] : List Vec3R) ∧
    ((build_path_mesh [⟨0, 0, 0⟩, ⟨1, 0, 0⟩, ⟨2, 0, 0⟩] 2).faces.length
        = ([⟨0, 0, 0⟩, ⟨1, 0, 0⟩, ⟨2, 0, 0⟩] : List Vec3R).length - 1 ∧
      ∀ f ∈ (build_path_mesh [⟨0, 0, 0⟩, ⟨1, 0, 0⟩, ⟨2, 0, 0⟩] 2).faces, f.length = 4) :=
  ⟨by simp, by simp [Vec3R.mk.injEq],
    build_path_mesh_faces [⟨0, 0, 0⟩, ⟨1, 0, 0⟩, ⟨2, 0, 0⟩] 2 (by simp)
      (by simp [Vec3R.mk.injEq])⟩

end HoleBuilderUtils

namespace HoleBuilderUtils

/-- The scene's object table, reduced to the object names it holds
(the only observable the idempotence claim speaks about). -/
abbrev Scene := List String

/-- Embedding of `remove_existing` from `hole_builder_utils.py`
restricted to the object table: the object with the given name is
removed if present (names are unique in the scene, and associated
orphaned mesh data is invisible to the name set). -/
def remove_existing (scene : Scene) (name : String) : Scene :=
  scene.filter (fun n => n != name)

/-- Embedding of `create_mesh_object` from `hole_builder_utils.py`
restricted to the object table: any existing object of that name is
removed, then a fresh object with exactly that name is created (the
collection link and material assignment do not change the name set). -/
def create_mesh_object (scene : Scene) (name : String) : Scene :=
  remove_existing scene name ++ [name]

/-- The create step of a build script: a sequence of
`create_mesh_object` calls on a fixed list of deterministic names. -/
def run_build_script (scene : Scene) (names : List String) : Scene :=
  names.foldl create_mesh_object scene

lemma run_build_script_cons (s : Scene) (n : String) (ns : List String) :
    run_build_script s (n :: ns) = run_build_script (create_mesh_object s n) ns := rfl

lemma run_build_script_split (ns : List String) :
    ∀ s : Scene, run_build_script s ns
      = s.filter (fun x => !(ns.contains x)) ++ run_build_script [] ns := by
  induction ns with
  | nil =>
    intro s
    simp [run_build_script]
  | cons n ns ih =>
    intro s
    rw [run_build_script_cons, ih (create_mesh_object s n),
      run_build_script_cons ([] : Scene) n ns, ih (create_mesh_object [] n),
      ← List.append_assoc]
    congr 1
    have hcreate : create_mesh_object ([] : Scene) n = [n] := rfl
    rw [hcreate, create_mesh_object, remove_existing, List.filter_append,
      List.filter_filter]
    congr 1
    refine List.filter_congr (fun x _ => ?_)
    show ((!ns.contains x) && (x != n)) = !((n :: ns).contains x)
    rw [List.contains_cons, Bool.not_or, Bool.and_comm]
    rfl

lemma run_build_script_mem (ns : List String) :
    ∀ (s : Scene) (x : String), x ∈ run_build_script s ns → x ∈ s ∨ x ∈ ns := by
  induction ns with
  | nil =>
    intro s x h
    exact Or.inl h
  | cons n ns ih =>
    intro s x h
    rw [run_build_script_cons] at h
    rcases ih _ x h with h1 | h1
    · rw [create_mesh_object, List.mem_append] at h1
      rcases h1 with h2 | h2
      · exact Or.inl (List.mem_of_mem_filter h2)
      · right
        simp only [List.mem_singleton] at h2
        simp [h2]
    · right
      simp [h1]

lemma run_build_script_twice (s : Scene) (ns : List String) :
    run_build_script (run_build_script s ns) ns = run_build_script s ns := by
  have hnil : (run_build_script [] ns).filter (fun x => !(ns.contains x)) = [] := by
    rw [List.filter_eq_nil_iff]
    intro x hx
    rcases run_build_script_mem ns [] x hx with h | h
    · cases h
    · simp [h]
  calc run_build_script (run_build_script s ns) ns
      = (run_build_script s ns).filter (fun x => !(ns.contains x))
          ++ run_build_script [] ns := run_build_script_split ns _
    _ = ((s.filter (fun x => !(ns.contains x)) ++ run_build_script [] ns)).filter
          (fun x => !(ns.contains x)) ++ run_build_script [] ns := by
        rw [← run_build_script_split ns s]
    _ = ((s.filter (fun x => !(ns.contains x))).filter (fun x => !(ns.contains x))
          ++ (run_build_script [] ns).filter (fun x => !(ns.contains x)))
          ++ run_build_script [] ns := by rw [List.filter_append]
    _ = s.filter (fun x => !(ns.contains x)) ++ run_build_script [] ns := by
        rw [hnil, List.filter_filter]
        simp
    _ = run_build_script s ns := (run_build_script_split ns s).symm

/-- C4: running a build script's create step twice in sequence yields
the same set of object names and the same object count as running it
once (in fact the very same object table), because each
`create_mesh_object` removes any existing object of its name before
recreating it. -/
theorem run_build_script_idempotent (scene : Scene) (names : List String) :
    (run_build_script (run_build_script scene names) names).toFinset
        = (run_build_script scene names).toFinset ∧
    (run_build_script (run_build_script scene names) names).length
        = (run_build_script scene names).length := by
  rw [run_build_script_twice]
  exact ⟨rfl, rfl⟩

end HoleBuilderUtils

namespace BuildHole5

/-- Module constant `FPS` of `build_hole_5.py`. -/
def FPS : ℕ := 30

/-- Module constant `REVOLUTION_SECONDS` of `build_hole_5.py`. -/
def REVOLUTION_SECONDS : ℕ := 4

/-- Module constant `REVOLUTION_FRAMES = FPS * REVOLUTION_SECONDS`
(120 frames) of `build_hole_5.py`. -/
def REVOLUTION_FRAMES : ℕ := FPS * REVOLUTION_SECONDS

/-- The windmill hub rotation driver expression attached in
`build_windmill_blades`: the interpolated string
`frame * (2 * 3.14159 / 120)`, as the real-valued function of the frame
that the host's expression engine evaluates. -/
noncomputable def windmill_driver (frame : ℝ) : ℝ :=
  frame * (2 * 3.14159 / (REVOLUTION_FRAMES : ℝ))

end BuildHole5

namespace EskdaleTheme

/-- The waterwheel rotation driver expression attached in
`build_eskdale_theme.py`: the string `frame * (2 * 3.14159 / 180)`, as
the real-valued function of the frame. -/
noncomputable def waterwheel_driver (frame : ℝ) : ℝ :=
  frame * (2 * 3.14159 / 180)

end EskdaleTheme

namespace BuildHole5

/-- Modelled from the claim's words: two angles are the same modulo 2π,
with 2π the exact real constant, when they differ by an integer
multiple of `2 * Real.pi`. -/
def eq_mod_two_pi (a b : ℝ) : Prop := ∃ k : ℤ, a - b = (k : ℝ) * (2 * Real.pi)

/-- C5 counterexample: already at frame 0, the windmill driver
expression evaluated at frame `0 + REVOLUTION_FRAMES` does NOT yield
the same angle modulo the exact real 2π as at frame 0: the difference
is exactly `2 * 3.14159`, which is rational and hence not an integer
multiple of the irrational `2 * Real.pi`. -/
theorem windmill_driver_not_periodic_mod_two_pi :
    ¬ eq_mod_two_pi (windmill_driver (0 + (REVOLUTION_FRAMES : ℝ))) (windmill_driver 0) := by
  rintro ⟨k, hk⟩
  have h1 : windmill_driver (0 + (REVOLUTION_FRAMES : ℝ)) - windmill_driver 0
      = 6.28318 := by
    rw [windmill_driver, windmill_driver]
    norm_num [REVOLUTION_FRAMES, FPS, REVOLUTION_SECONDS]
  rw [h1] at hk
  rcases eq_or_ne k 0 with rfl | hk0
  · norm_num at hk
  · have hirr : Irrational ((k : ℝ) * (2 * Real.pi)) := by
      have h2 : (k : ℝ) * (2 * Real.pi) = ((2 * k : ℤ) : ℝ) * Real.pi := by
        push_cast
        ring
      rw [h2]
      exact irrational_pi.int_mul (by omega)
    rw [← hk] at hirr
    have hrat : ((6.28318 : ℚ) : ℝ) = (6.28318 : ℝ) := by norm_num
    rw [← hrat] at hirr
    exact Rat.not_irrational _ hirr

/-- C5 (amended): for every frame `F`, the windmill driver expression at
`F + 120` exceeds its value at `F` by exactly `2 * 3.14159` (the code's
rational approximation of 2π), and the waterwheel driver at `F + 180`
likewise; so the angle repeats modulo `2 * 3.14159`, which differs from
an exact 2π revolution by `2 * (π - 3.14159)` per period. -/
theorem driver_revolution_difference (F : ℝ) :
    windmill_driver (F + (REVOLUTION_FRAMES : ℝ)) - windmill_driver F
        = 2 * 3.14159 ∧
    EskdaleTheme.waterwheel_driver (F + 180) - EskdaleTheme.waterwheel_driver F
        = 2 * 3.14159 := by
  constructor
  · rw [windmill_driver, windmill_driver]
    norm_num [REVOLUTION_FRAMES, FPS, REVOLUTION_SECONDS]
    ring
  · rw [EskdaleTheme.waterwheel_driver, EskdaleTheme.waterwheel_driver]
    ring

end BuildHole5


namespace BlenderWs

/-- Parsed JSON values, the possible results of `json.loads` on the
WebSocket reply text. -/
inductive Json where
  | null : Json
  | bool : Bool → Json
  | num : ℚ → Json
  | str : String → Json
  | arr : List Json → Json
  | obj : List (String × Json) → Json

/-- Python `dict.get(key)` on a parsed JSON object (duplicate keys do
not survive `json.loads`, so first-match lookup is exact). -/
def jget (kvs : List (String × Json)) (k : String) : Option Json :=
  match kvs.find? (fun p => p.1 == k) with
  | some p => some p.2
  | none => none

mutual

/-- Python `repr` of a parsed JSON value (used by `str` on containers). -/
def pyRepr : Json → String
  | .null => "None"
  | .bool true => "True"
  | .bool false => "False"
  | .num q => toString q
  | .str s => "\x27" ++ s ++ "\x27"
  | .arr xs => "[" ++ pyReprList xs ++ "]"
  | .obj kvs => "\x7b" ++ pyReprObj kvs ++ "\x7d"

/-- Comma-separated `repr`s of list elements. -/
def pyReprList : List Json → String
  | [] => ""
  | [x] => pyRepr x
  | x :: xs => pyRepr x ++ ", " ++ pyReprList xs

/-- Comma-separated `repr`s of dict entries. -/
def pyReprObj : List (String × Json) → String
  | [] => ""
  | [(k, v)] => "\x27" ++ k ++ "\x27: " ++ pyRepr v
  | (k, v) :: kvs => "\x27" ++ k ++ "\x27: " ++ pyRepr v ++ ", " ++ pyReprObj kvs

end

/-- Python `str()` as applied by f-string interpolation: identity on
strings, `repr`-style rendering otherwise. -/
def pyStr : Json → String
  | .str s => s
  | v => pyRepr v

/-- Python `result.get("error", "unknown")` fed through the f-string. -/
def errText (kvs : List (String × Json)) : String :=
  match jget kvs "error" with
  | some v => pyStr v
  | none => "unknown"

/-- Python `result.get("status") == "error"`: true exactly when the
field is present and is the string `error`. -/
def statusIsError (o : Option Json) : Bool :=
  match o with
  | some (.str s) => s == "error"
  | _ => false

lemma statusIsError_iff (o : Option Json) :
    statusIsError o = true ↔ o = some (Json.str "error") := by
  cases o with
  | none => simp [statusIsError]
  | some v => cases v <;> simp [statusIsError]

/-- The reply handling of `send_command` in `blender_ws.py`: given the
parsed JSON reply, either the raised exception message (RuntimeError on
an error-status reply; AttributeError when the reply is not a JSON
object, since `.get` is called on it) or the returned value
`result.get("data", result)`. -/
def send_command (result : Json) : Except String Json :=
  match result with
  | .obj kvs =>
    if statusIsError (jget kvs "status") then
      .error ("Blender error: " ++ errText kvs)
    else
      .ok ((jget kvs "data").getD (Json.obj kvs))
  | _ => .error "AttributeError: result has no attribute get"

lemma send_command_obj (kvs : List (String × Json)) :
    send_command (Json.obj kvs)
      = if statusIsError (jget kvs "status") then
          Except.error ("Blender error: " ++ errText kvs)
        else
          Except.ok ((jget kvs "data").getD (Json.obj kvs)) := rfl

/-- Modelled from the claim's words: the parsed JSON reply has a
`"status"` field equal to `"error"`. -/
def has_error_status (r : Json) : Prop :=
  ∃ kvs, r = Json.obj kvs ∧ jget kvs "status" = some (Json.str "error")

/-- C7 counterexample: on a reply that parses to a JSON array (not an
object), `send_command` raises (an AttributeError from `.get`) even
though the reply has no `"status"` field equal to `"error"`, so
"raises if and only if status is error" fails as stated. -/
theorem send_command_counterexample :
    (send_command (Json.arr [])).isOk = false ∧ ¬ has_error_status (Json.arr []) := by
  refine ⟨rfl, ?_⟩
  rintro ⟨kvs, h, -⟩
  cases h

/-- C7 (amended): for every reply that parses to a JSON object,
`send_command` raises if and only if the `"status"` field equals
`"error"`; the raised message carries the reply's `"error"` string
verbatim (or `unknown` when absent); on any non-error status it
returns the `"data"` field, or the whole reply object when there is no
`"data"` field.  Replies that are not JSON objects raise an
AttributeError instead. -/
theorem send_command_spec (kvs : List (String × Json)) :
    ((send_command (Json.obj kvs)).isOk = false
        ↔ jget kvs "status" = some (Json.str "error")) ∧
    (∀ s, jget kvs "status" = some (Json.str "error") →
        jget kvs "error" = some (Json.str s) →
        send_command (Json.obj kvs) = .error ("Blender error: " ++ s)) ∧
    (jget kvs "status" = some (Json.str "error") → jget kvs "error" = none →
        send_command (Json.obj kvs) = .error ("Blender error: " ++ "unknown")) ∧
    (jget kvs "status" ≠ some (Json.str "error") →
        send_command (Json.obj kvs) = .ok ((jget kvs "data").getD (Json.obj kvs))) := by
  refine ⟨?_, ?_, ?_, ?_⟩
  · by_cases h : jget kvs "status" = some (Json.str "error")
    · rw [send_command_obj, if_pos ((statusIsError_iff _).mpr h)]
      simp [h, Except.isOk, Except.toBool]
    · rw [send_command_obj,
        if_neg (fun hb => h ((statusIsError_iff _).mp hb))]
      simp [h, Except.isOk, Except.toBool]
  · intro s hs he
    rw [send_command_obj, if_pos ((statusIsError_iff _).mpr hs), errText, he]
    rfl
  · intro hs he
    rw [send_command_obj, if_pos ((statusIsError_iff _).mpr hs), errText, he]
  · intro h
    rw [send_command_obj, if_neg (fun hb => h ((statusIsError_iff _).mp hb))]

/-- Witness for C7 (amended) at concrete replies: an error-status reply
with message string `boom`, and an ok-status reply carrying a `"data"`
field. -/
theorem send_command_spec_witness :
    (jget [("status", Json.str "error"), ("error", Json.str "boom")] "status"
        = some (Json.str "error") ∧
      send_command (Json.obj [("status", Json.str "error"), ("error", Json.str "boom")])
        = .error ("Blender error: " ++ "boom")) ∧
    (jget [("status", Json.str "ok"), ("data", Json.num 7)] "status"
        ≠ some (Json.str "error") ∧
      send_command (Json.obj [("status", Json.str "ok"), ("data", Json.num 7)])
        = .ok (Json.num 7)) := by
  have hok : jget [("status", Json.str "ok"), ("data", Json.num 7)] "status"
      ≠ some (Json.str "error") := by
    intro h
    rw [← statusIsError_iff] at h
    simp [jget, statusIsError] at h
  constructor
  · refine ⟨by rfl, ?_⟩
    exact (send_command_spec [("status", Json.str "error"), ("error", Json.str "boom")]).2.1
      "boom" (by rfl) (by rfl)
  · refine ⟨hok, ?_⟩
    exact (send_command_spec [("status", Json.str "ok"), ("data", Json.num 7)]).2.2.2 hok

end BlenderWs

namespace HoleBuilderUtils

/-- An RGBA color value. -/
abbrev Color := ℚ × ℚ × ℚ × ℚ

/-- A material datablock as the scripts observe it: its name, whether
it uses nodes, and the Principled BSDF inputs the scripts write.  A
freshly created node-based material carries Blender's Principled
defaults (gray base color 0.8, metallic 0, roughness 0.5), so the
`Principled BSDF` node lookup always succeeds on a new material. -/
structure Material where
  name : String
  use_nodes : Bool
  base_color : Color
  metallic : ℚ
  roughness : ℚ
deriving DecidableEq, Repr

/-- The Principled BSDF default inputs of a freshly created node-based
material. -/
def newNodeMaterial (name : String) : Material :=
  { name := name, use_nodes := true,
    base_color := (0.8, 0.8, 0.8, 1.0), metallic := 0, roughness := 0.5 }

/-- Embedding of `get_or_create_material` from `hole_builder_utils.py`:
return an existing material by name, or create a node-based material;
the `Base Color` / `Metallic` / `Roughness` inputs are assigned only
under `if bsdf and base_color` — i.e. only when a `base_color` argument
was passed (the Principled node of a fresh material always exists).
Returns the (possibly extended) material table and the material. -/
def get_or_create_material (mats : List Material) (name : String)
    (base_color : Option Color) (metallic roughness : ℚ) :
    List Material × Material :=
  match mats.find? (fun m => m.name == name) with
  | some m => (mats, m)
  | none =>
    let m := match base_color with
      | some c => { newNodeMaterial name with
          base_color := c, metallic := metallic, roughness := roughness }
      | none => newNodeMaterial name
    (mats ++ [m], m)

/-- The collection state the scripts observe: which collections exist,
and the parent links made so far (`none` standing for the scene root
collection). -/
structure CollState where
  names : List String
  links : List (Option String × String)
deriving DecidableEq, Repr

/-- Embedding of `ensure_collection` from `hole_builder_utils.py`: get
or create a collection, linking a newly created one under the parent
when the parent exists (looked up after creation), else under the
scene root. -/
def ensure_collection (cs : CollState) (name : String)
    (parent_name : Option String) : CollState × String :=
  if cs.names.contains name then (cs, name)
  else
    let names := cs.names ++ [name]
    let link := match parent_name with
      | some p => if names.contains p then (some p, name) else (none, name)
      | none => (none, name)
    ({ names := names, links := link :: cs.links }, name)

end HoleBuilderUtils

namespace BuildHole5

/-- Embedding of `get_collection` from `build_hole_5.py`: return an
existing collection by name, or raise a RuntimeError — it never
creates the collection. -/
def get_collection (cs : HoleBuilderUtils.CollState) (name : String) :
    Except String String :=
  if cs.names.contains name then .ok name
  else .error ("Collection " ++ name ++ " not found. Create it before running this script.")

/-- Embedding of `get_material` from `build_hole_5.py`: return an
existing material by name, or create a node-based placeholder with
default shading values. -/
def get_material (mats : List HoleBuilderUtils.Material) (name : String) :
    List HoleBuilderUtils.Material × HoleBuilderUtils.Material :=
  match mats.find? (fun m => m.name == name) with
  | some m => (mats, m)
  | none =>
    let m := HoleBuilderUtils.newNodeMaterial name
    (mats ++ [m], m)

end BuildHole5

namespace HoleBuilderUtils

/-- C8 counterexample: `get_collection` in `build_hole_5.py` does NOT
create a missing collection — on a scene with no collections it raises
a RuntimeError instead of returning an entity. -/
theorem get_collection_counterexample :
    (BuildHole5.get_collection ⟨[], []⟩ "Hole5_Obstacles").isOk = false := rfl

lemma find?_name_eq (mats : List Material) (name : String) (m : Material)
    (h : mats.find? (fun m => m.name == name) = some m) : m.name = name := by
  have := List.find?_some h
  simpa using this

/-- C8 (amended): `get_or_create_material`, `get_material` and
`ensure_collection` are total — for any requested name and any current
scene state they return an entity bearing exactly the requested name,
creating it with placeholder defaults when missing, and never raise.
(`get_collection` of `build_hole_5.py` is the exception: it raises on
a missing collection rather than creating it.) -/
theorem lookups_total (mats mats2 : List Material) (name : String)
    (base_color : Option Color) (metallic roughness : ℚ)
    (cs : CollState) (parent_name : Option String) :
    (get_or_create_material mats name base_color metallic roughness).2.name = name ∧
    (BuildHole5.get_material mats2 name).2.name = name ∧
    (ensure_collection cs name parent_name).2 = name := by
  refine ⟨?_, ?_, ?_⟩
  · rw [get_or_create_material.eq_def]
    cases h : mats.find? (fun m => m.name == name) with
    | some m => exact find?_name_eq mats name m h
    | none => cases base_color <;> rfl
  · rw [BuildHole5.get_material]
    cases h : mats2.find? (fun m => m.name == name) with
    | some m => exact find?_name_eq mats2 name m h
    | none => rfl
  · rw [ensure_collection]
    split
    · rfl
    · rfl

/-- C10: when a material with the requested name already exists,
`get_or_create_material` returns that material unchanged and leaves
the material table untouched — the `base_color`, `metallic` and
`roughness` arguments are ignored for existing materials. -/
theorem get_or_create_material_preserves_existing (mats : List Material)
    (name : String) (base_color : Option Color) (metallic roughness : ℚ)
    (m : Material) (h : mats.find? (fun m => m.name == name) = some m) :
    get_or_create_material mats name base_color metallic roughness = (mats, m) := by
  rw [get_or_create_material.eq_def, h]

/-- Witness for C10: a red metallic `WoodRail` material already exists;
re-running with green, zero-metallic, different-roughness arguments
returns the red material and an unchanged table. -/
theorem get_or_create_material_preserves_existing_witness :
    ([⟨"WoodRail", true, (1, 0, 0, 1), 1, 0.9⟩] : List Material).find?
        (fun m => m.name == "WoodRail")
        = some ⟨"WoodRail", true, (1, 0, 0, 1), 1, 0.9⟩ ∧
    get_or_create_material [⟨"WoodRail", true, (1, 0, 0, 1), 1, 0.9⟩] "WoodRail"
        (some (0, 1, 0, 1)) 0 0.5
      = ([⟨"WoodRail", true, (1, 0, 0, 1), 1, 0.9⟩],
         ⟨"WoodRail", true, (1, 0, 0, 1), 1, 0.9⟩) :=
  ⟨rfl, get_or_create_material_preserves_existing _ "WoodRail" (some (0, 1, 0, 1)) 0 0.5
      ⟨"WoodRail", true, (1, 0, 0, 1), 1, 0.9⟩ rfl⟩

end HoleBuilderUtils
